import Mathlib

/-!
Verification of the discovery engine of the scholar-baller repository.

The development shallowly embeds the discovery code:

* the URL/name validity filters of src/app/actions/discoverScholarships.ts
  (the regex pattern lists EXCLUDE_URL_PATTERNS and EXCLUDE_NAME_PATTERNS are
  translated pattern by pattern into executable character-list predicates);
* the per-source paginators of src/app/actions/discoverScholarships.ts
  (scrapeScholarships360 and scrapeScholarshipsCom), with the page fetch and
  candidate extraction abstracted into a function from page numbers to an
  optional list of already-extracted-and-validated candidate URLs;
* the refined shared-budget variant of discoverScholarships (second document
  of src/unnamed/part_008): per-page scrapers that mutate a shared counter,
  the sequential orchestrator with its budget checks, the final
  dedup/filter/truncate pipeline and the result construction;
* the post-discovery analysis batch of the same refined variant.

Candidates are identified by their URL (the code compares items for identity
exclusively by exact URL equality), so list items are represented by the URL
alone, drawn from an arbitrary type with decidable equality.
-/

namespace ScholarBaller

/-! ## Character-level helpers for the regex pattern translations -/

/-- Lower-cased character list of a string (models case-insensitive regex
matching: JavaScript applies the i flag; we lowercase both sides). -/
def lcList (s : String) : List Char :=
  s.data.map Char.toLower

/-- Does the pattern occur as a contiguous sublist? (models an unanchored
regex literal). -/
def containsSub (pat l : List Char) : Bool :=
  l.tails.any (fun t => pat.isPrefixOf t)

/-- Case-insensitive substring containment of a literal pattern. -/
def containsCI (s pat : String) : Bool :=
  containsSub (lcList pat) (lcList s)

/-- Case-insensitive prefix test (models an anchored regex literal). -/
def startsWithCI (s pat : String) : Bool :=
  (lcList pat).isPrefixOf (lcList s)

/-- Case-insensitive suffix test. -/
def endsWithCI (s pat : String) : Bool :=
  (lcList pat).isSuffixOf (lcList s)

/-- Case-insensitive whole-string equality (models a fully anchored regex). -/
def eqCI (s pat : String) : Bool :=
  lcList s == lcList pat

/-- Occurrence of the literal pattern immediately followed by a digit
(models a regex of shape pattern then one-or-more digits: one digit
suffices for the regex to match). -/
def containsFollowedByDigit (pat : List Char) (l : List Char) : Bool :=
  l.tails.any (fun t =>
    pat.isPrefixOf t &&
      (match t.drop pat.length with
       | c :: _ => c.isDigit
       | [] => false))

/-- JavaScript word character, the class used by backslash-w. -/
def isWordCh (c : Char) : Bool :=
  c.isAlpha || c.isDigit || c == '_'

/-- JavaScript whitespace class restricted to the ASCII characters that can
occur in the inputs considered here. -/
def isSpaceCh (c : Char) : Bool :=
  c == ' ' || c == '\t' || c == '\n' || c == '\r'

/-- Consume exactly n digits from the front, returning the rest. -/
def dropDigits : Nat → List Char → Option (List Char)
  | 0, l => some l
  | _ + 1, [] => none
  | n + 1, c :: rest => if c.isDigit then dropDigits n rest else none

/-- Consume an optional separator character.  In every phone-number regex of
the source, the optional separator class is disjoint from the digit class
that follows, so consume-if-present is exactly the regex semantics. -/
def dropOptSep (sep : Char → Bool) : List Char → List Char
  | [] => []
  | c :: rest => if sep c then rest else c :: rest

/-- Three digits, optional separator, three digits, optional separator, four
digits, end of string: the common core of the phone-number patterns. -/
def phoneCore (sep : Char → Bool) (l : List Char) : Bool :=
  match dropDigits 3 l with
  | none => false
  | some r1 =>
    match dropDigits 3 (dropOptSep sep r1) with
    | none => false
    | some r2 =>
      match dropDigits 4 (dropOptSep sep r2) with
      | some [] => true
      | _ => false

/-- Separator class of the URL phone pattern: whitespace or dash. -/
def sepSpaceDash (c : Char) : Bool :=
  isSpaceCh c || c == '-'

/-- Separator class of the name phone patterns: whitespace, dot or dash. -/
def sepSpaceDotDash (c : Char) : Bool :=
  isSpaceCh c || c == '.' || c == '-'

/-! ## EXCLUDE_URL_PATTERNS (discoverScholarships.ts lines 36-80) -/

/-- Translation of the category-suffix pattern: one or more characters in
the class a-z or dash, then the literal -scholarships, then an optional
slash, then end of string (case-insensitive). -/
def catScholarshipsSuffix (s : String) : Bool :=
  let l := lcList s
  let l1 := if l.getLast? == some '/' then l.dropLast else l
  ("-scholarships".data.isSuffixOf l1) &&
    (match (l1.take (l1.length - 13)).getLast? with
     | some c => c.isLower || c == '-'
     | none => false)

/-- Translation of the best-segment pattern: the literal /best- then one or
more word characters then a slash, anywhere in the URL.  Because a slash is
not a word character, a match exists exactly when the maximal word-character
run after /best- is nonempty and is followed by a slash. -/
def containsBestSeg (s : String) : Bool :=
  (lcList s).tails.any (fun t =>
    "/best-".data.isPrefixOf t &&
      (let rest := t.drop 6
       let w := rest.takeWhile isWordCh
       !w.isEmpty &&
         (match rest.drop w.length with
          | '/' :: _ => true
          | _ => false)))

/-- Whole-string phone number with whitespace-or-dash separators, the URL
phone pattern. -/
def urlPhonePat (s : String) : Bool :=
  phoneCore sepSpaceDash (lcList s)

/-- shouldExcludeUrl: some pattern in EXCLUDE_URL_PATTERNS matches the URL.
Each disjunct below translates, in source order, one regex of the list. -/
def shouldExcludeUrl (url : String) : Bool :=
  containsCI url "/by-demographics/" ||
  containsCI url "/by-state/" ||
  containsCI url "/by-field/" ||
  containsCI url "/by-type/" ||
  containsCI url "/by-year/" ||
  containsCI url "/category/" ||
  containsCI url "/tag/" ||
  containsFollowedByDigit "/page/".data (lcList url) ||
  containsCI url "/type/" ||
  containsCI url "/state/" ||
  catScholarshipsSuffix url ||
  containsCI url "/faq/" ||
  containsCI url "/blog/" ||
  containsCI url "/article/" ||
  containsCI url "/news/" ||
  containsCI url "/resources/" ||
  containsCI url "/tips/" ||
  containsCI url "/guide/" ||
  containsCI url "/how-to/" ||
  containsCI url "/what-is/" ||
  containsCI url "/what-are/" ||
  containsBestSeg url ||
  (endsWithCI url "/search" || endsWithCI url "/search/") ||
  containsCI url "/search/" ||
  containsCI url "/login/" ||
  containsCI url "/register/" ||
  containsCI url "/account/" ||
  containsCI url "/about/" ||
  containsCI url "/contact/" ||
  containsCI url "/privacy/" ||
  containsCI url "/terms/" ||
  containsCI url "/terms-of-use/" ||
  containsCI url "/terms-of-service/" ||
  urlPhonePat url ||
  startsWithCI url "tel:" ||
  containsCI url "utm_source=" ||
  containsCI url "utm_medium=" ||
  containsCI url "?ref="

/-! ## EXCLUDE_NAME_PATTERNS (discoverScholarships.ts lines 83-105) -/

/-- Phone pattern with optional dot-dash-space separators, fully anchored. -/
def namePhonePlain (s : String) : Bool :=
  phoneCore sepSpaceDotDash s.data

/-- Parenthesised area code phone pattern, fully anchored. -/
def namePhoneParen (s : String) : Bool :=
  match s.data with
  | '(' :: rest =>
    (match dropDigits 3 rest with
     | some (')' :: r1) =>
       (match dropDigits 3 (dropOptSep isSpaceCh r1) with
        | none => false
        | some r2 =>
          match dropDigits 4 (dropOptSep sepSpaceDotDash r2) with
          | some [] => true
          | _ => false)
     | _ => false)
  | _ => false

/-- Phone pattern with an optional leading country code 1; the leading 1 is
ambiguous with the first digit group, so both alternatives are tried, which
is exactly the regex backtracking behaviour. -/
def namePhoneOne (s : String) : Bool :=
  phoneCore sepSpaceDotDash (dropOptSep sepSpaceDotDash s.data) ||
    (match s.data with
     | '1' :: rest => phoneCore sepSpaceDotDash (dropOptSep sepSpaceDotDash rest)
     | _ => false)

/-- shouldExcludeName: some pattern in EXCLUDE_NAME_PATTERNS matches the
name.  Anchored alternations are expanded into one prefix test per
alternative; the contact pattern matches exactly its three full strings. -/
def shouldExcludeName (name : String) : Bool :=
  (startsWithCI name "how do" || startsWithCI name "how to" ||
   startsWithCI name "how can" || startsWithCI name "how does") ||
  (startsWithCI name "what is" || startsWithCI name "what are" ||
   startsWithCI name "what do" || startsWithCI name "what does") ||
  (startsWithCI name "why do" || startsWithCI name "why are" ||
   startsWithCI name "why is") ||
  (startsWithCI name "when do" || startsWithCI name "when to" ||
   startsWithCI name "when should") ||
  (startsWithCI name "where can" || startsWithCI name "where do" ||
   startsWithCI name "where to") ||
  containsCI name "best scholarship" ||
  containsCI name "scholarship tips" ||
  containsCI name "scholarship guide" ||
  containsCI name "scholarship search" ||
  containsCI name "avoid scams" ||
  containsCI name "common mistakes" ||
  containsCI name "frequently asked" ||
  containsCI name "faq" ||
  (containsCI name "terms of use" || containsCI name "terms of service") ||
  eqCI name "terms" ||
  eqCI name "privacy policy" ||
  (eqCI name "contact us" || eqCI name "contact information" || eqCI name "contact ") ||
  namePhonePlain name ||
  namePhoneParen name ||
  namePhoneOne name

/-- isValidScholarshipUrl (discoverScholarships.ts lines 281-287): reject on
a URL exclusion, reject on a name exclusion, reject names shorter than 5 or
longer than 150 characters, otherwise accept. -/
def isValidScholarshipUrl (url name : String) : Bool :=
  if shouldExcludeUrl url then false
  else if shouldExcludeName name then false
  else if name.length < 5 || name.length > 150 then false
  else true

/-! ## Discovery data model

Items are represented by their URL (an arbitrary type with decidable
equality); the code compares items exclusively by exact URL equality. -/

section Discovery

variable {U : Type} [DecidableEq U]

/-- One step of keep-first deduplication: append the element unless an equal
one is already present.  This is the push pattern used throughout the
scrapers (avoid duplicates within this scrape) and equivalent to the
findIndex-based filter used by the orchestrator (keep the first occurrence
of every URL). -/
def dedupStep (acc : List U) (u : U) : List U :=
  if u ∈ acc then acc else acc ++ [u]

/-- Keep-first deduplication by URL, the orchestrator's uniqueScholarships
computation (part_008 lines 1334-1337). -/
def dedupKeepFirst (l : List U) : List U :=
  l.foldl dedupStep []

/-- Page-level candidate scan shared by the scrapers: fold the page's
extracted-and-validated candidates over the accumulated list, pushing each
candidate whose URL is not yet collected; count how many were pushed
(foundOnPage) and how many of those are not in the existing-URL set
(newOnPage, the per-candidate shared-state increments). -/
def scanPage (cands existing collected0 : List U) : List U × Nat × Nat :=
  cands.foldl
    (fun acc c =>
      if c ∈ acc.1 then acc
      else (acc.1 ++ [c], acc.2.1 + 1, if c ∈ existing then acc.2.2 else acc.2.2 + 1))
    (collected0, 0, 0)

/-- A single-page scraper call of the refined variant (part_008): its local
list starts empty, and it returns the pushed items together with the number
of shared-state increments it performed (one per pushed item whose URL is
not in the existing set). -/
def scrapePage (cands existing : List U) : List U × Nat :=
  ((scanPage cands existing []).1, (scanPage cands existing []).2.2)

/-- Outcome of fetching one page of a source: total fetch failure, a
detected silent redirect to page 1 (checkRedirect true), or a successful
fetch carrying the extracted-and-validated candidates. -/
inductive FetchOutcome (U : Type) where
  | fail
  | redirected
  | ok (cands : List U)
deriving DecidableEq

/-- What a single-page scraper call of the refined variant contributes for a
given fetch outcome: a failed fetch and a detected redirect both return the
(empty) local list without touching the shared counter; a successful fetch
is processed by the candidate scan. -/
def pageItems (o : FetchOutcome U) (existing : List U) : List U × Nat :=
  match o with
  | FetchOutcome.fail => ([], 0)
  | FetchOutcome.redirected => ([], 0)
  | FetchOutcome.ok cands => scrapePage cands existing

/-- A recorded page request: which source, which page, and the value of the
shared counter at the moment the request was issued. -/
structure Req where
  src : Nat
  page : Nat
  cnt : Nat
deriving DecidableEq

/-- Mutable state threaded through one discovery run of the refined
variant: the run-level accumulator, the shared budget counter
(sharedState.newCount) and the chronological trace of issued page
requests. -/
structure RunState (U : Type) where
  all : List U
  newCount : Nat
  requests : List Req
deriving DecidableEq

/-- Processing of one page inside the page loop: record the request (with
the counter value at issue time), let the single-page scraper add its
per-candidate increments to the shared counter, recount the page's new
items against the existing set and the run accumulator and add that count
to the shared counter as well (the orchestrator's second update, part_008
lines 1268-1273), and append the items to the accumulator. -/
def pageStep (src : Nat → FetchOutcome U) (srcIdx page : Nat) (existing : List U)
    (st : RunState U) : RunState U :=
  let scraped := pageItems (src page) existing
  let newFromPage := scraped.1.filter (fun u => decide (u ∉ existing) && decide (u ∉ st.all))
  { all := st.all ++ scraped.1
    newCount := st.newCount + scraped.2 + newFromPage.length
    requests := st.requests ++ [⟨srcIdx, page, st.newCount⟩] }

/-- The page loop of the refined orchestrator (part_008 lines 1240-1320)
for one source, driven by the number of pages left: check the shared budget
before issuing the next page request and stop the source if it is
exhausted, process the page, then check the shared budget again after the
page. -/
def runPages (src : Nat → FetchOutcome U) (srcIdx : Nat) (existing : List U) (target : Nat) :
    Nat → Nat → RunState U → RunState U
  | 0, _, st => st
  | fuel + 1, page, st =>
    if target ≤ st.newCount then st
    else
      let st2 := pageStep src srcIdx page existing st
      if target ≤ st2.newCount then st2
      else runPages src srcIdx existing target fuel (page + 1) st2

/-- The source loop of the refined orchestrator (part_008 lines 1229-1326):
check the shared budget before starting each source, run its page loop from
page 1, and check the budget again after the source finishes. -/
def runSources (existing : List U) (maxPages target : Nat) :
    List (Nat → FetchOutcome U) → Nat → RunState U → RunState U
  | [], _, st => st
  | src :: rest, idx, st =>
    if target ≤ st.newCount then st
    else
      let st1 := runPages src idx existing target maxPages 1 st
      if target ≤ st1.newCount then st1
      else runSources existing maxPages target rest (idx + 1) st1

/-- Result record returned by discoverScholarships (the fields the claims
are about). -/
structure DiscoveryResult (U : Type) where
  success : Bool
  scholarships : List U
  errors : List String
  newCount : Nat
  duplicateCount : Nat
deriving DecidableEq

/-- The final pipeline and result construction of the refined variant
(part_008 lines 1333-1349 and 1391-1399): deduplicate the run accumulator
by URL keeping first occurrences, drop every URL present in the existing
set, truncate to the target count, and report success when at least one
unique scholarship was found or no error was recorded. -/
def mkDiscoveryResult (all existing : List U) (targetCount : Nat) (errors : List String) :
    DiscoveryResult U :=
  let uniqueScholarships := dedupKeepFirst all
  let newScholarships := uniqueScholarships.filter (fun u => decide (u ∉ existing))
  let limitedScholarships := newScholarships.take targetCount
  { success := decide (0 < uniqueScholarships.length) || decide (errors.length = 0)
    scholarships := limitedScholarships
    errors := errors
    newCount := limitedScholarships.length
    duplicateCount := uniqueScholarships.length - newScholarships.length }

/-- A whole discovery run of the refined variant: run the sources
sequentially from an empty state, then build the result.  The embedded
scrapers are total functions, so the exception path that would push error
strings is unreachable and the run's error list is empty. -/
def runDiscovery (sources : List (Nat → FetchOutcome U)) (existing : List U)
    (maxPages target : Nat) : RunState U × DiscoveryResult U :=
  let st := runSources existing maxPages target sources 0 ⟨[], 0, []⟩
  (st, mkDiscoveryResult st.all existing target [])

/-! ## Per-source paginators of src/app/actions/discoverScholarships.ts

These scrapers loop over pages internally.  A source is modelled as a
function from page numbers to an optional candidate list: none is a total
fetch failure, some cs a fetched page whose extracted-and-validated
candidates are cs. -/

/-- Local state of one internal pagination loop, plus the trace of page
numbers requested. -/
structure PaginatorState (U : Type) where
  collected : List U
  totalNew : Nat
  pagesScanned : Nat
  emptyStreak : Nat
  dupStreak : Nat
  requests : List Nat
deriving DecidableEq

/-- The pagination loop of scrapeScholarships360 (discoverScholarships.ts
lines 766-880), driven by the number of pages left.  A failed fetch
advances the consecutive-empty-page streak (threshold 3) without counting a
scanned page and without resetting the duplicate streak.  A fetched page is
scanned; a page with zero pushed candidates advances the empty streak
(threshold 3) and resets the duplicate streak; a page with candidates but
zero new ones resets the empty streak and advances the duplicate streak,
stopping once the streak reaches 20 and at least 15 pages were scanned; a
page with new candidates resets both streaks and accumulates the new
count. -/
def s360Go (pages : Nat → Option (List U)) (existing : List U) :
    Nat → Nat → PaginatorState U → PaginatorState U
  | 0, _, st => st
  | fuel + 1, page, st =>
    let st0 := { st with requests := st.requests ++ [page] }
    match pages page with
    | none =>
      if 3 ≤ st0.emptyStreak + 1 then { st0 with emptyStreak := st0.emptyStreak + 1 }
      else s360Go pages existing fuel (page + 1) { st0 with emptyStreak := st0.emptyStreak + 1 }
    | some cands =>
      let scan := scanPage cands existing st0.collected
      let st1 := { st0 with collected := scan.1, pagesScanned := st0.pagesScanned + 1 }
      if scan.2.1 = 0 then
        if 3 ≤ st1.emptyStreak + 1 then { st1 with emptyStreak := st1.emptyStreak + 1 }
        else s360Go pages existing fuel (page + 1)
          { st1 with emptyStreak := st1.emptyStreak + 1, dupStreak := 0 }
      else
        let st2 := { st1 with emptyStreak := 0 }
        if scan.2.2 = 0 then
          if 20 ≤ st2.dupStreak + 1 ∧ 15 ≤ st2.pagesScanned then
            { st2 with dupStreak := st2.dupStreak + 1 }
          else s360Go pages existing fuel (page + 1) { st2 with dupStreak := st2.dupStreak + 1 }
        else
          s360Go pages existing fuel (page + 1)
            { st2 with dupStreak := 0, totalNew := st2.totalNew + scan.2.2 }

/-- scrapeScholarships360 of discoverScholarships.ts run from page 1 with a
fresh state, up to maxPages pages. -/
def s360Run (pages : Nat → Option (List U)) (existing : List U) (maxPages : Nat) :
    PaginatorState U :=
  s360Go pages existing maxPages 1 ⟨[], 0, 0, 0, 0, []⟩

/-- Local state of the Scholarships.com pagination loop (it tracks no
empty-page streak and no minimum-pages floor). -/
structure ComState (U : Type) where
  collected : List U
  totalNew : Nat
  dupStreak : Nat
  requests : List Nat
deriving DecidableEq

/-- The pagination loop of scrapeScholarshipsCom (discoverScholarships.ts
lines 887-1008): a failed fetch stops the loop immediately; a page with
zero pushed candidates stops the loop immediately; a page with candidates
but zero new ones advances the consecutive-duplicate streak and stops once
it reaches 10 (there is no minimum-pages floor); a page with new candidates
resets the streak. -/
def comGo (pages : Nat → Option (List U)) (existing : List U) :
    Nat → Nat → ComState U → ComState U
  | 0, _, st => st
  | fuel + 1, page, st =>
    let st0 := { st with requests := st.requests ++ [page] }
    match pages page with
    | none => st0
    | some cands =>
      let scan := scanPage cands existing st0.collected
      let st1 := { st0 with collected := scan.1 }
      if scan.2.1 = 0 then st1
      else if scan.2.2 = 0 then
        if 10 ≤ st1.dupStreak + 1 then { st1 with dupStreak := st1.dupStreak + 1 }
        else comGo pages existing fuel (page + 1) { st1 with dupStreak := st1.dupStreak + 1 }
      else
        comGo pages existing fuel (page + 1)
          { st1 with dupStreak := 0, totalNew := st1.totalNew + scan.2.2 }

/-- scrapeScholarshipsCom of discoverScholarships.ts run from page 1 with a
fresh state, up to maxPages pages. -/
def comRun (pages : Nat → Option (List U)) (existing : List U) (maxPages : Nat) : ComState U :=
  comGo pages existing maxPages 1 ⟨[], 0, 0, []⟩

/-! ## Post-discovery analysis batch of the refined variant

The loop of part_008 lines 1359-1382: every item of the truncated list gets
exactly one analyzeScholarship call; a successful analysis is pushed onto
the analyzed list, a failure (returned error or thrown exception alike)
pushes one error string and the loop simply continues with the next item.
The analysis call is modelled as a function into an Except. -/

/-- One iteration of the analysis loop over the accumulator (issued calls,
analyzed results, error strings): issue the call for the item, then push
the result or the error string. -/
def analysisStep {V : Type} (analyze : U → Except String V)
    (acc : List U × List V × List String) (item : U) : List U × List V × List String :=
  match analyze item with
  | Except.ok v => (acc.1 ++ [item], acc.2.1 ++ [v], acc.2.2)
  | Except.error e => (acc.1 ++ [item], acc.2.1, acc.2.2 ++ [e])

/-- Run the analysis batch: returns, in order, the list of items for which
an analysis call was issued, the successfully analyzed results, and the
per-item error strings. -/
def runAnalysisBatch {V : Type} (analyze : U → Except String V) (items : List U) :
    List U × List V × List String :=
  items.foldl (analysisStep analyze) ([], [], [])

/-! ## Lemmas about keep-first deduplication -/

theorem dedupStep_nodup {acc : List U} {u : U} (h : acc.Nodup) : (dedupStep acc u).Nodup := by
  unfold dedupStep
  split
  · exact h
  · rename_i hm
    simp [List.nodup_append, h, hm]

theorem foldl_dedupStep_nodup (l : List U) :
    ∀ acc : List U, acc.Nodup → (l.foldl dedupStep acc).Nodup := by
  induction l with
  | nil => intro acc h; simpa using h
  | cons x xs ih => intro acc h; exact ih _ (dedupStep_nodup h)

theorem dedupKeepFirst_nodup (l : List U) : (dedupKeepFirst l).Nodup :=
  foldl_dedupStep_nodup l [] (by simp)

theorem length_le_foldl_dedupStep (l : List U) :
    ∀ acc : List U, acc.length ≤ (l.foldl dedupStep acc).length := by
  induction l with
  | nil => simp
  | cons x xs ih =>
    intro acc
    refine le_trans ?_ (ih (dedupStep acc x))
    unfold dedupStep
    split
    · exact le_refl _
    · simp

theorem dedupKeepFirst_eq_nil_iff (l : List U) : dedupKeepFirst l = [] ↔ l = [] := by
  cases l with
  | nil => simp [dedupKeepFirst]
  | cons x xs =>
    simp only [dedupKeepFirst, List.foldl_cons]
    constructor
    · intro h
      have h1 := length_le_foldl_dedupStep xs (dedupStep [] x)
      rw [h] at h1
      have h2 : dedupStep ([] : List U) x = [x] := by simp [dedupStep]
      rw [h2] at h1
      simp at h1
    · intro h
      simp at h

/-! ## C1 and C2: the final pipeline -/

/-- C1: for every discovery run, the list of scholarships returned by
discoverScholarships (the new-item list, after in-run deduplication and
filtering against the pre-loaded existing-URL set) contains at most
targetNewCount items: the pipeline ends with a truncation to the target. -/
theorem discovery_budget_respected (sources : List (Nat → FetchOutcome U)) (existing : List U)
    (maxPages target : Nat) :
    (runDiscovery sources existing maxPages target).2.scholarships.length ≤ target := by
  simp only [runDiscovery, mkDiscoveryResult]
  exact List.length_take_le _ _

/-- C2: for every discovery run, the returned scholarships list contains no
two items with the same URL (items being identified by URL, the list has no
duplicate element) and no item whose URL belongs to the existing-URL set
loaded at the start of the run. -/
theorem discovery_dedup_invariant (sources : List (Nat → FetchOutcome U)) (existing : List U)
    (maxPages target : Nat) :
    (runDiscovery sources existing maxPages target).2.scholarships.Nodup ∧
      ∀ u ∈ (runDiscovery sources existing maxPages target).2.scholarships, u ∉ existing := by
  constructor
  · simp only [runDiscovery, mkDiscoveryResult]
    exact List.Nodup.sublist (List.take_sublist _ _) ((dedupKeepFirst_nodup _).filter _)
  · intro u hu
    simp only [runDiscovery, mkDiscoveryResult] at hu
    have hu2 := List.mem_of_mem_take hu
    have hu3 := (List.mem_filter.1 hu2).2
    simpa using hu3

/-- C2 witness: the invariant evaluated on a concrete run with one source
whose single page yields one known and one unknown URL. -/
theorem discovery_dedup_invariant_witness :
    (7 : Nat) ∈ (runDiscovery [fun _ => FetchOutcome.ok [3, 7]] ([3] : List Nat) 2 10).2.scholarships ∧
      (7 : Nat) ∉ ([3] : List Nat) :=
  ⟨by decide,
   (discovery_dedup_invariant [fun _ => FetchOutcome.ok [3, 7]] ([3] : List Nat) 2 10).2 7
     (by decide)⟩

/-! ## C10: success flag -/

theorem runPages_ok_nil (src : Nat → FetchOutcome U) (idx : Nat) (existing : List U)
    (target : Nat) (hsrc : ∀ p, src p = FetchOutcome.ok []) :
    ∀ (fuel page : Nat) (st : RunState U),
      (runPages src idx existing target fuel page st).all = st.all ∧
        (runPages src idx existing target fuel page st).newCount = st.newCount := by
  intro fuel
  induction fuel with
  | zero => intro page st; exact ⟨rfl, rfl⟩
  | succ n ih =>
    intro page st
    rw [runPages]
    split
    · exact ⟨rfl, rfl⟩
    · rename_i hnot
      simp only [pageStep, hsrc page, pageItems, scrapePage, scanPage, List.foldl_nil,
        List.filter_nil, List.length_nil, List.append_nil, Nat.add_zero]
      rw [if_neg hnot]
      exact ih (page + 1) _

theorem runSources_ok_nil (existing : List U) (maxPages target : Nat) :
    ∀ (sources : List (Nat → FetchOutcome U)) (idx : Nat) (st : RunState U),
      (∀ src ∈ sources, ∀ p, src p = FetchOutcome.ok []) →
      (runSources existing maxPages target sources idx st).all = st.all := by
  intro sources
  induction sources with
  | nil => intro idx st _; rfl
  | cons src rest ih =>
    intro idx st hsrc
    simp only [runSources]
    split
    · rfl
    · have h1 := runPages_ok_nil src idx existing target
        (hsrc src (List.mem_cons_self src rest)) maxPages 1 st
      split
      · exact h1.1
      · rw [ih (idx + 1) _ (fun s hs p => hsrc s (List.mem_cons_of_mem _ hs) p)]
        exact h1.1

/-- C10: discoverScholarships returns success true exactly when at least
one unique in-run scholarship was accumulated or the errors list is empty
(first conjunct, about the embedded result construction with an arbitrary
error list); in particular a run in which every source yields zero
candidates on every page, and hence records no error, returns success true
with an empty scholarships list (second conjunct). -/
theorem discovery_success_condition :
    (∀ (all existing : List U) (target : Nat) (errors : List String),
        (mkDiscoveryResult all existing target errors).success = true ↔
          (all ≠ [] ∨ errors = [])) ∧
    (∀ (sources : List (Nat → FetchOutcome U)) (existing : List U) (maxPages target : Nat),
        (∀ src ∈ sources, ∀ p, src p = FetchOutcome.ok []) →
        (runDiscovery sources existing maxPages target).2.success = true ∧
          (runDiscovery sources existing maxPages target).2.scholarships = []) := by
  have hiff : ∀ (all existing : List U) (target : Nat) (errors : List String),
      (mkDiscoveryResult all existing target errors).success = true ↔
        (all ≠ [] ∨ errors = []) := by
    intro all existing target errors
    simp only [mkDiscoveryResult, Bool.or_eq_true, decide_eq_true_eq, List.length_pos,
      List.length_eq_zero, ne_eq, dedupKeepFirst_eq_nil_iff]
  refine ⟨hiff, ?_⟩
  intro sources existing maxPages target hsrc
  have hall : (runSources existing maxPages target sources 0 ⟨[], 0, []⟩).all = ([] : List U) :=
    runSources_ok_nil existing maxPages target sources 0 ⟨[], 0, []⟩ hsrc
  constructor
  · have h2 : (runDiscovery sources existing maxPages target).2 =
        mkDiscoveryResult (runSources existing maxPages target sources 0 ⟨[], 0, []⟩).all
          existing target [] := rfl
    rw [h2, hiff]
    exact Or.inr rfl
  · have h2 : (runDiscovery sources existing maxPages target).2 =
        mkDiscoveryResult (runSources existing maxPages target sources 0 ⟨[], 0, []⟩).all
          existing target [] := rfl
    rw [h2, hall]
    simp [mkDiscoveryResult, dedupKeepFirst]

/-- C10 witness: the success condition applied to a concrete empty run (one
source, every page fetched and empty) and, for the first conjunct, to a
concrete accumulator and error list. -/
theorem discovery_success_condition_witness :
    ((mkDiscoveryResult ([1] : List Nat) [] 5 ["boom"]).success = true ↔
      (([1] : List Nat) ≠ [] ∨ ["boom"] = [])) ∧
    ((runDiscovery [fun _ => FetchOutcome.ok []] ([] : List Nat) 3 5).2.success = true ∧
      (runDiscovery [fun _ => FetchOutcome.ok []] ([] : List Nat) 3 5).2.scholarships = []) :=
  ⟨(discovery_success_condition (U := Nat)).1 [1] [] 5 ["boom"],
   (discovery_success_condition (U := Nat)).2 [fun _ => FetchOutcome.ok []] [] 3 5
     (by intro src hs p; simp at hs; rw [hs])⟩

/-! ## C3: the shared budget stops all further page requests -/

/-- Invariant carried through a run: every recorded page request was issued
while the shared counter was strictly below the target, the recorded
counter values are chronologically nondecreasing, and every recorded value
is bounded by the current counter. -/
def budgetInv (target : Nat) (st : RunState U) : Prop :=
  (∀ e ∈ st.requests, e.cnt < target) ∧
  st.requests.Pairwise (fun a b => a.cnt ≤ b.cnt) ∧
  (∀ e ∈ st.requests, e.cnt ≤ st.newCount)

omit [DecidableEq U] in
theorem budgetInv_extend {target : Nat} {st : RunState U} (h : budgetInv target st)
    (hlt : st.newCount < target) (i p n2 : Nat) (all2 : List U) (hle : st.newCount ≤ n2) :
    budgetInv target ⟨all2, n2, st.requests ++ [⟨i, p, st.newCount⟩]⟩ := by
  obtain ⟨h1, h2, h3⟩ := h
  refine ⟨?_, ?_, ?_⟩
  · intro e he
    rcases List.mem_append.1 he with he | he
    · exact h1 e he
    · simp only [List.mem_singleton] at he
      subst he
      exact hlt
  · refine List.pairwise_append.2 ⟨h2, by simp, ?_⟩
    intro a ha b hb
    simp only [List.mem_singleton] at hb
    subst hb
    exact h3 a ha
  · intro e he
    rcases List.mem_append.1 he with he | he
    · exact le_trans (h3 e he) hle
    · simp only [List.mem_singleton] at he
      subst he
      exact hle

theorem pageStep_newCount_le (src : Nat → FetchOutcome U) (idx page : Nat) (existing : List U)
    (st : RunState U) : st.newCount ≤ (pageStep src idx page existing st).newCount := by
  simp only [pageStep]
  omega

theorem pageStep_budgetInv {target : Nat} {st : RunState U} (src : Nat → FetchOutcome U)
    (idx page : Nat) (existing : List U) (h : budgetInv target st)
    (hlt : st.newCount < target) :
    budgetInv target (pageStep src idx page existing st) :=
  budgetInv_extend h hlt idx page _ _ (pageStep_newCount_le src idx page existing st)

theorem runPages_budgetInv (src : Nat → FetchOutcome U) (idx : Nat) (existing : List U)
    (target : Nat) :
    ∀ (fuel page : Nat) (st : RunState U), budgetInv target st →
      budgetInv target (runPages src idx existing target fuel page st) := by
  intro fuel
  induction fuel with
  | zero => intro page st h; exact h
  | succ n ih =>
    intro page st h
    simp only [runPages]
    split
    · exact h
    · rename_i hnot
      have h2 : budgetInv target (pageStep src idx page existing st) :=
        pageStep_budgetInv src idx page existing h (Nat.lt_of_not_le hnot)
      split
      · exact h2
      · exact ih (page + 1) _ h2

theorem runSources_budgetInv (existing : List U) (maxPages target : Nat) :
    ∀ (sources : List (Nat → FetchOutcome U)) (idx : Nat) (st : RunState U),
      budgetInv target st →
      budgetInv target (runSources existing maxPages target sources idx st) := by
  intro sources
  induction sources with
  | nil => intro idx st h; exact h
  | cons src rest ih =>
    intro idx st h
    simp only [runSources]
    split
    · exact h
    · have h1 := runPages_budgetInv src idx existing target maxPages 1 st h
      split
      · exact h1
      · exact ih (idx + 1) _ h1

/-- C3: in every run of the refined variant, every page request is issued
while the shared counter is still strictly below the target, and the
counter values recorded at issue time never decrease along the run; hence
once the counter has reached the target no further page request is issued
for the rest of the run, neither for remaining pages of the current source
nor for any remaining source. -/
theorem discovery_requests_below_target (sources : List (Nat → FetchOutcome U))
    (existing : List U) (maxPages target : Nat) :
    (∀ e ∈ (runDiscovery sources existing maxPages target).1.requests, e.cnt < target) ∧
      (runDiscovery sources existing maxPages target).1.requests.Pairwise
        (fun a b => a.cnt ≤ b.cnt) := by
  have h := runSources_budgetInv existing maxPages target sources 0 ⟨[], 0, []⟩
    ⟨by simp, by simp, by simp⟩
  exact ⟨h.1, h.2.1⟩

/-- A source for the concrete witness runs: every page yields the single
candidate URL 5. -/
def witnessSource : Nat → FetchOutcome Nat := fun _ => FetchOutcome.ok [5]

/-- C3 witness: on a concrete run the first page request of the first
source is recorded with counter value 0, strictly below the target 10. -/
theorem discovery_requests_below_target_witness :
    (⟨0, 1, 0⟩ : Req) ∈ (runDiscovery [witnessSource] ([] : List Nat) 1 10).1.requests ∧
      (⟨0, 1, 0⟩ : Req).cnt < 10 :=
  ⟨by decide,
   (discovery_requests_below_target [witnessSource] [] 1 10).1 _ (by decide)⟩

/-! ## C5: redirect detection aborts the page, not the pagination -/

theorem runPages_requests_mono (src : Nat → FetchOutcome U) (idx : Nat) (existing : List U)
    (target : Nat) :
    ∀ (fuel page : Nat) (st : RunState U) (e : Req),
      e ∈ st.requests → e ∈ (runPages src idx existing target fuel page st).requests := by
  intro fuel
  induction fuel with
  | zero => intro page st e he; exact he
  | succ n ih =>
    intro page st e he
    simp only [runPages]
    split
    · exact he
    · have he2 : e ∈ (pageStep src idx page existing st).requests := by
        simp only [pageStep]
        exact List.mem_append_left _ he
      split
      · exact he2
      · exact ih (page + 1) _ e he2

/-- C5 amended: when fetching page N (N greater than 1 included) of a
source yields a detected redirect to the canonical page-1 URL, the
single-page scraper call abandons that page, contributing no candidates
and no counter increments; but the pagination of the source does not stop:
as long as the shared budget is not exhausted and pages remain, page N+1 is
requested as well. -/
theorem redirect_aborts_page_not_pagination (src : Nat → FetchOutcome U) (idx : Nat)
    (existing : List U) (target fuel page : Nat) (st : RunState U)
    (hred : src page = FetchOutcome.redirected) (hbudget : st.newCount < target) :
    pageItems (src page) existing = ([], 0) ∧
    (⟨idx, page, st.newCount⟩ : Req) ∈
      (runPages src idx existing target (fuel + 2) page st).requests ∧
    (⟨idx, page + 1, st.newCount⟩ : Req) ∈
      (runPages src idx existing target (fuel + 2) page st).requests := by
  have hnot : ¬ target ≤ st.newCount := Nat.not_le.2 hbudget
  have hstep : pageStep src idx page existing st =
      ⟨st.all, st.newCount, st.requests ++ [⟨idx, page, st.newCount⟩]⟩ := by
    simp [pageStep, hred, pageItems]
  have h1 : runPages src idx existing target (fuel + 2) page st =
      runPages src idx existing target (fuel + 1) (page + 1)
        ⟨st.all, st.newCount, st.requests ++ [⟨idx, page, st.newCount⟩]⟩ := by
    rw [show fuel + 2 = (fuel + 1) + 1 from rfl]
    simp only [runPages, hstep]
    rw [if_neg hnot, if_neg hnot]
  have h2 : ∀ e : Req,
      e ∈ (st.requests ++ [⟨idx, page, st.newCount⟩]) ++ [⟨idx, page + 1, st.newCount⟩] →
      e ∈ (runPages src idx existing target (fuel + 1) (page + 1)
        ⟨st.all, st.newCount, st.requests ++ [⟨idx, page, st.newCount⟩]⟩).requests := by
    intro e he
    simp only [runPages]
    split
    · exact absurd ‹target ≤ _› hnot
    · have he2 : e ∈ (pageStep src idx (page + 1) existing
          ⟨st.all, st.newCount, st.requests ++ [⟨idx, page, st.newCount⟩]⟩).requests := by
        simp only [pageStep]
        exact he
      split
      · exact he2
      · exact runPages_requests_mono src idx existing target fuel (page + 2) _ e he2
  refine ⟨by rw [hred]; rfl, ?_, ?_⟩
  · rw [h1]
    exact h2 _ (by simp)
  · rw [h1]
    exact h2 _ (by simp)

/-- A source that redirects on page 5 and otherwise yields empty pages. -/
def redirectAtFive : Nat → FetchOutcome Nat := fun p =>
  if p = 5 then FetchOutcome.redirected else FetchOutcome.ok []

/-- C5 counterexample: on a concrete run of the refined variant in which
fetching page 5 of the only source is recognized as a redirect to the
canonical page-1 URL, page 6 of that source is nevertheless requested in
the same run, contradicting the claim that page N+1 is never requested. -/
theorem redirect_short_circuit_cex :
    redirectAtFive 5 = FetchOutcome.redirected ∧
    (⟨0, 6, 0⟩ : Req) ∈ (runDiscovery [redirectAtFive] ([] : List Nat) 10 1).1.requests := by
  decide

/-- C5 witness: the amended statement applied to a concrete source,
starting state and budget. -/
theorem redirect_aborts_page_not_pagination_witness :
    pageItems (redirectAtFive 5) ([] : List Nat) = ([], 0) ∧
    (⟨0, 5, 0⟩ : Req) ∈
      (runPages redirectAtFive 0 ([] : List Nat) 1 2 5 ⟨[], 0, []⟩).requests ∧
    (⟨0, 6, 0⟩ : Req) ∈
      (runPages redirectAtFive 0 ([] : List Nat) 1 2 5 ⟨[], 0, []⟩).requests :=
  redirect_aborts_page_not_pagination redirectAtFive 0 [] 1 0 5 ⟨[], 0, []⟩
    (by decide) (by decide)

/-! ## C4: the shared counter is updated twice per new candidate -/

/-- A source whose every page yields the single candidate URL 0. -/
def oneCandidateSource : Nat → FetchOutcome Nat := fun _ => FetchOutcome.ok [0]

/-- C4: evaluation of the refined variant at the failing input (one source,
one page, one candidate URL that is not in the existing set).  The run
accumulates exactly one distinct new candidate, but the shared budget
counter ends at 2, not 1: the scraper increments it once when pushing the
new candidate and the orchestrator adds the page's new-candidate count a
second time, so the counter does not equal the cumulative count of distinct
new candidates. -/
theorem shared_counter_double_increment :
    (runDiscovery [oneCandidateSource] ([] : List Nat) 1 10).1.all = [0] ∧
    (dedupKeepFirst (runDiscovery [oneCandidateSource] ([] : List Nat) 1 10).1.all).length = 1 ∧
    (runDiscovery [oneCandidateSource] ([] : List Nat) 1 10).1.newCount = 2 := by
  decide

/-! ## C6: the consecutive-empty-page threshold -/

/-- C6 amended (holds for the Scholarships360 paginator, whose streak logic
Bold.org shares): if pages 1, 2 and 3 all fetch successfully but yield zero
candidates, and the configured maximum page count is at least 3, the
paginator requests exactly pages 1, 2 and 3 — it stops at page 3, when the
consecutive-empty-page streak reaches the threshold 3, and never requests
page 4 or any later page, whatever the later pages would yield. -/
theorem s360_empty_pages_stop_at_three (pages : Nat → Option (List U)) (existing : List U)
    (maxPages : Nat) (h1 : pages 1 = some []) (h2 : pages 2 = some [])
    (h3 : pages 3 = some []) (hmax : 3 ≤ maxPages) :
    (s360Run pages existing maxPages).requests = [1, 2, 3] := by
  obtain ⟨k, rfl⟩ := Nat.exists_eq_add_of_le hmax
  rw [Nat.add_comm 3 k]
  simp [s360Run, s360Go, h1, h2, h3, scanPage]

/-- Simulated source yielding zero candidates on pages 1 to 3 and one fresh
candidate on every later page. -/
def emptyThenFull : Nat → Option (List Nat) := fun p =>
  some (if p ≤ 3 then [] else [p])

/-- C6 counterexample: the Scholarships.com paginator, run on a source that
yields zero candidates on pages 1-3 and candidates afterwards, stops after
requesting page 1 only — it does not request pages 2 and 3, contradicting
the claim that every source paginator stops exactly at page 3 after an
empty-page streak of 3. -/
theorem com_stops_at_first_empty_page_cex :
    (comRun emptyThenFull ([] : List Nat) 10).requests = [1] ∧
    (comRun emptyThenFull ([] : List Nat) 10).requests ≠ [1, 2, 3] := by
  decide

/-- C6 witness: the amended statement evaluated on the concrete simulated
source. -/
theorem s360_empty_pages_stop_at_three_witness :
    (emptyThenFull 1 = some [] ∧ emptyThenFull 2 = some [] ∧ emptyThenFull 3 = some [] ∧
      3 ≤ 10) ∧
    (s360Run emptyThenFull ([] : List Nat) 10).requests = [1, 2, 3] :=
  ⟨⟨by decide, by decide, by decide, by decide⟩,
   s360_empty_pages_stop_at_three emptyThenFull [] 10 (by decide) (by decide) (by decide)
     (by decide)⟩

/-! ## C7: the consecutive-duplicate streak and the minimum-pages floor -/

/-- Simulated source yielding on every page p the single candidate URL p
(fresh within the run, so every page counts as a duplicate page rather than
an empty page once the URLs are all known). -/
def duplicateOnlyPages : Nat → Option (List Nat) := fun p => some [p]

/-- An existing-URL set containing the candidate URLs of the first 25
pages, so that every page yields only already-known candidates. -/
def duplicateExisting : List Nat := List.range 26

/-- C7 amended (holds for the Scholarships360 paginator, whose streak logic
Bold.org shares, but not for Scholarships.com): on a simulated source
returning only duplicates for 25 consecutive pages starting at page 1, the
paginator does not stop before page 15 and stops exactly when the
consecutive-duplicate streak reaches 20 pages, having requested pages 1
through 20. -/
theorem s360_duplicate_streak_floor :
    (s360Run duplicateOnlyPages duplicateExisting 25).requests =
      [1, 2, 3, 4, 5, 6, 7, 8, 9, 10, 11, 12, 13, 14, 15, 16, 17, 18, 19, 20] ∧
    15 ≤ (s360Run duplicateOnlyPages duplicateExisting 25).requests.length := by
  decide

/-- C7 counterexample: the Scholarships.com paginator, on the same
duplicates-only simulated source, stops after page 10 (its duplicate-streak
threshold is 10 and it has no minimum-pages floor), i.e. before page 15,
contradicting the claim that every source paginator does not stop before
page 15. -/
theorem com_duplicate_streak_no_floor_cex :
    (comRun duplicateOnlyPages duplicateExisting 25).requests =
      [1, 2, 3, 4, 5, 6, 7, 8, 9, 10] ∧
    (comRun duplicateOnlyPages duplicateExisting 25).requests.length < 15 := by
  decide

/-! ## C8: the analysis batch -/

omit [DecidableEq U] in
theorem analysisStep_calls {V : Type} (analyze : U → Except String V)
    (acc : List U × List V × List String) (item : U) :
    (analysisStep analyze acc item).1 = acc.1 ++ [item] := by
  unfold analysisStep
  split <;> rfl

omit [DecidableEq U] in
theorem analysisStep_length {V : Type} (analyze : U → Except String V)
    (acc : List U × List V × List String) (item : U) :
    (analysisStep analyze acc item).2.1.length + (analysisStep analyze acc item).2.2.length =
      acc.2.1.length + acc.2.2.length + 1 := by
  unfold analysisStep
  split <;> simp <;> omega

omit [DecidableEq U] in
theorem foldl_analysisStep {V : Type} (analyze : U → Except String V) :
    ∀ (items : List U) (acc : List U × List V × List String),
      (items.foldl (analysisStep analyze) acc).1 = acc.1 ++ items ∧
        (items.foldl (analysisStep analyze) acc).2.1.length +
            (items.foldl (analysisStep analyze) acc).2.2.length =
          acc.2.1.length + acc.2.2.length + items.length := by
  intro items
  induction items with
  | nil => intro acc; simp
  | cons x xs ih =>
    intro acc
    rw [List.foldl_cons]
    obtain ⟨ha, hb⟩ := ih (analysisStep analyze acc x)
    constructor
    · rw [ha, analysisStep_calls]
      simp
    · rw [hb, analysisStep_length]
      simp only [List.length_cons]
      omega

omit [DecidableEq U] in
/-- C8 amended: the post-discovery analysis loop of the refined variant
issues exactly one analysis call per item of the truncated batch, in order,
and records each failure as one error string without aborting the batch;
there is no special handling of a quota-exceeded failure — calls continue
for every remaining item regardless of earlier failures. -/
theorem analysis_batch_processes_every_item {V : Type} (analyze : U → Except String V)
    (items : List U) :
    (runAnalysisBatch analyze items).1 = items ∧
      (runAnalysisBatch analyze items).2.1.length +
          (runAnalysisBatch analyze items).2.2.length = items.length := by
  obtain ⟨ha, hb⟩ := foldl_analysisStep analyze items ([], [], [])
  exact ⟨by simpa using ha, by simpa using hb⟩

/-- Analysis function that fails with the quota-exceeded error message (the
message analyzeScholarship.ts produces on a 429) for item 0 and succeeds on
every other item. -/
def quotaAnalyze : Nat → Except String Nat := fun u =>
  if u = 0 then Except.error "Gemini API quota exceeded" else Except.ok u

/-- C8 counterexample: in a concrete batch whose first item fails with a
quota-exceeded error, analysis calls are nevertheless issued for both
remaining items — the loop does not stop on a quota signal, contradicting
the claim that no further analysis calls are issued after one. -/
theorem quota_failure_does_not_stop_batch_cex :
    quotaAnalyze 0 = Except.error "Gemini API quota exceeded" ∧
    (runAnalysisBatch quotaAnalyze [0, 1, 2]).2.2 = ["Gemini API quota exceeded"] ∧
    (runAnalysisBatch quotaAnalyze [0, 1, 2]).1 = [0, 1, 2] :=
  ⟨rfl, by decide, by decide⟩

end Discovery

/-! ## C9: the literal validity-filter scenarios -/

/-- C9: the three literal scenarios of the validity filter — a category
page URL is rejected, a genuine scholarship detail URL with a proper name
is accepted, a FAQ URL with an interrogative name is rejected — and the
filter is a pure function: on any URL/name pair, repeated evaluations
return the same result. -/
theorem validity_filter_scenarios :
    isValidScholarshipUrl "https://site.org/scholarships/category/nursing/"
        "Nursing Scholarships" = false ∧
    isValidScholarshipUrl "https://site.org/scholarships/jane-doe-memorial-award/"
        "Jane Doe Memorial Award" = true ∧
    isValidScholarshipUrl "https://site.org/faq/how-to-apply/" "How Do I Apply?" = false ∧
    ∀ url name : String, isValidScholarshipUrl url name = isValidScholarshipUrl url name :=
  ⟨by decide, by decide, by decide, fun _ _ => rfl⟩

end ScholarBaller
